import Mathlib

/-!
Shallow embedding of the collaborative group-study session coordinator
(`GroupStudy` component and its data types).

The document store (Firestore) is modelled as a function from document id
(room code) to an optional session document; `setDoc`, `updateDoc` (with a
field-mutating function) and batched `delete` are modelled as pointwise
updates of that function.  JS objects used as string-keyed maps
(`permissions`, and the quiz maps) are modelled as functions
`String → Option _`; the JS spread-and-override construction
`{...m, [k]: v}` becomes a pointwise function update, and Firestore's
`deleteField()` sets the key to `none`.

The store-level operations (`handleCreateRoom`, `handleJoinRoom`,
`leaveRoom`) are translated from the event handlers of the component,
specialised to the sequential setting in which the client's snapshot
(`sessionData`) coincides with the currently stored document — which is
what the subscription delivers between writes.  `handleLeaveRoom` is also
modelled at the client level (with the component's local state) because
its early-return guard is itself under scrutiny.
-/

namespace GroupStudy

/-- Participant record, from `types.ts` (`Participant`). -/
structure Participant where
  uid : String
  name : String
  photoURL : String
deriving DecidableEq

/-- Entry of the `permissions` map, from `types.ts` (`Permissions`). -/
structure Perm where
  canShare : Bool
deriving DecidableEq

/-- Chat message, from `types.ts` (`GroupChatMessage`). -/
structure GroupChatMessage where
  id : String
  senderId : String
  senderName : String
  text : String
  timestamp : Nat
deriving DecidableEq

/-- Shared note block, from `types.ts` (`SharedNoteBlock`). -/
structure SharedNoteBlock where
  id : String
  authorId : String
  authorName : String
  notes : List String
deriving DecidableEq

/-- Flashcard, from `types.ts` (`Flashcard`). -/
structure Flashcard where
  question : String
  answer : String
deriving DecidableEq

/-- Group quiz state, from `types.ts` (`GroupQuizState`); the two
string-keyed JS objects are modelled as functions. -/
structure GroupQuizState where
  flashcards : List Flashcard
  currentQuestionIndex : Nat
  scores : String → Option Int
  isComplete : Bool
  quizMasterId : String
  answered : String → Option Bool
  isRevealed : Bool

/-- A string-keyed permissions map (JS object), modelled pointwise. -/
abbrev Perms := String → Option Perm

/-- Session document stored under `group_sessions/{code}`, with the fields
written by `handleCreateRoom`. -/
structure Session where
  hostId : String
  participants : List Participant
  chatMessages : List GroupChatMessage
  sharedNotes : List SharedNoteBlock
  sharedFlashcards : List Flashcard
  quizState : Option GroupQuizState
  permissions : Perms
  createdAt : Nat

/-- The document store: room code to optional session document. -/
abbrev Store := String → Option Session

/-- The store with no documents. -/
def emptyStore : Store := fun _ => none

/-- `getDoc` / read-once: look the document up by id. -/
def readOnce (st : Store) (code : String) : Option Session := st code

/-- `setDoc`: write the document unconditionally (create or overwrite). -/
def setDoc (st : Store) (code : String) (s : Session) : Store :=
  fun c => if c = code then some s else st c

/-- Batched `delete`: remove the document if present. -/
def deleteDoc (st : Store) (code : String) : Store :=
  fun c => if c = code then none else st c

/-- `updateDoc` with a set of field mutations, modelled as a function on
the stored document; a missing document stays missing (the update fails). -/
def updateDocWith (st : Store) (code : String) (f : Session → Session) : Store :=
  fun c => if c = code then (st c).map f else st c

/-- Firestore `arrayUnion(x)`: append `x` unless an equal element is
already present. -/
def arrayUnion {α : Type} [DecidableEq α] (l : List α) (x : α) : List α :=
  if x ∈ l then l else l ++ [x]

/-- JS `String.prototype.toUpperCase` on the characters of the string. -/
def jsToUpper (s : String) : String := ⟨s.data.map Char.toUpper⟩

/-- JS `String.prototype.trim`: drop leading and trailing whitespace. -/
def jsTrim (s : String) : String :=
  ⟨((s.data.dropWhile Char.isWhitespace).reverse.dropWhile Char.isWhitespace).reverse⟩

/-- The initial session document built by `handleCreateRoom`: the creator
is sole participant and host, with `canShare = true`. -/
def initialSessionData (u : Participant) (now : Nat) : Session where
  hostId := u.uid
  participants := [u]
  chatMessages := []
  sharedNotes := []
  sharedFlashcards := []
  quizState := none
  permissions := fun k => if k = u.uid then some { canShare := true } else none
  createdAt := now

/-- `handleCreateRoom`: generate a code (passed in here, the draw of
`generateRoomCode`) and `setDoc` the initial document.  The source performs
no existence check and no retry before the `setDoc`. -/
def handleCreateRoom (st : Store) (code : String) (u : Participant) (now : Nat) : Store :=
  setDoc st code (initialSessionData u now)

/-- `handleJoinRoom`: normalise the entered code, fail (store untouched)
when it is empty or the document is absent; otherwise update the document:
`participants` via `arrayUnion`, and `permissions` rebuilt client-side as
the spread of the snapshot's map with `[uid]: {canShare:false}` overriding. -/
def handleJoinRoom (st : Store) (rawCode : String) (u : Participant) : Store :=
  let code := jsToUpper (jsTrim rawCode)
  if code = "" then st
  else
    match readOnce st code with
    | none => st
    | some s =>
        updateDocWith st code (fun d =>
          { d with
              participants := arrayUnion d.participants u
              permissions := fun k =>
                if k = u.uid then some { canShare := false } else s.permissions k })

/-- The store mutation of `handleLeaveRoom`, parameterised by the client's
snapshot `s` (the destructured `sessionData`): filter the caller out of the
snapshot's roster, then either transfer the host role, delete the document
when nobody remains, or just persist the removal plus `deleteField()` on
the caller's permissions key. -/
def leaveStoreUpdate (st : Store) (code : String) (u : Participant) (s : Session) : Store :=
  let newParticipants := s.participants.filter (fun p => p.uid ≠ u.uid)
  if u.uid = s.hostId ∧ newParticipants ≠ [] then
    match newParticipants with
    | [] => st
    | newHost :: _ =>
        updateDocWith st code (fun d =>
          { d with
              hostId := newHost.uid
              participants := newParticipants
              permissions := fun k =>
                if k = newHost.uid then some { canShare := true } else d.permissions k })
  else if newParticipants = [] then
    deleteDoc st code
  else
    updateDocWith st code (fun d =>
      { d with
          participants := newParticipants
          permissions := fun k => if k = u.uid then none else d.permissions k })

/-- Store-level `handleLeaveRoom` in the sequential setting: the snapshot
the handler destructures is the currently stored document. -/
def leaveRoom (st : Store) (code : String) (u : Participant) : Store :=
  match readOnce st code with
  | none => st
  | some s => leaveStoreUpdate st code u s

/-- The component-local state read by `handleLeaveRoom`: the `roomCode`
and `inputRoomCode` strings, the `sessionData` snapshot, and whether a
snapshot listener is installed (`unsubscribeRef.current` non-null). -/
structure ClientState where
  roomCode : String
  inputRoomCode : String
  sessionData : Option Session
  subscribed : Bool

/-- Client-level `handleLeaveRoom`: return immediately when `roomCode` is
empty or no snapshot is held; otherwise tear down the subscription, issue
the store mutation computed from the snapshot, and clear the local state. -/
def handleLeaveRoom (cs : ClientState) (u : Participant) (st : Store) : ClientState × Store :=
  match cs.sessionData with
  | none => (cs, st)
  | some s =>
      if cs.roomCode = "" then (cs, st)
      else
        ({ roomCode := "", inputRoomCode := "", sessionData := none, subscribed := false },
         leaveStoreUpdate st cs.roomCode u s)

/-- Result of parsing the oracle's response text as JSON when the parse
succeeds: the value of the `notes` field when it is present and truthy
(per the response schema, an array of strings), `none` otherwise. -/
structure ParsedNotesJson where
  notes : Option (List String)

/-- Outcome of the generative call plus `JSON.parse` inside
`handleGenerateNotes`: the `generateContent` call may throw, `JSON.parse`
on the returned text may throw, or parsing yields a JSON value. -/
inductive OracleOutcome where
  | genFailure
  | parseFailure
  | parsedJson (p : ParsedNotesJson)

/-- `handleGenerateNotes`: no-op on blank input; on any thrown error the
catch block records an error message and nothing is written; on a parsed
response a `SharedNoteBlock` built from `parsedNotes.notes || []` is
appended to `sharedNotes` via `arrayUnion`, with no inspection of the
caller's `permissions` entry.  Returns the store and the `error` state. -/
def handleGenerateNotes (st : Store) (code : String) (u : Participant)
    (notesInput : String) (blockId : String) (outcome : OracleOutcome) :
    Store × Option String :=
  if jsTrim notesInput = "" then (st, none)
  else
    match outcome with
    | .genFailure => (st, some "Failed to generate notes from AI.")
    | .parseFailure => (st, some "Failed to generate notes from AI.")
    | .parsedJson p =>
        let newNoteBlock : SharedNoteBlock :=
          { id := blockId
            authorId := u.uid
            authorName := u.name
            notes := p.notes.getD [] }
        (updateDocWith st code (fun d =>
          { d with sharedNotes := arrayUnion d.sharedNotes newNoteBlock }), none)

/-- First word list of `generateRoomCode`. -/
def word1 : List String := ["HAPPY", "LAZY", "BRIGHT", "QUICK", "SILENT", "SPARK"]

/-- Second word list of `generateRoomCode`. -/
def word2 : List String := ["FOX", "CUP", "TREE", "RIVER", "STONE", "CLOUD"]

/-- `generateRoomCode`: two uniform draws index the word lists
(`Math.floor(Math.random()*len)` lands in `0..len-1`) and a third draw
produces `Math.floor(Math.random()*90)+10`, i.e. `10..99`. -/
def generateRoomCode (i : Fin word1.length) (j : Fin word2.length) (r : Fin 90) : String :=
  word1.get i ++ "-" ++ word2.get j ++ "-" ++ toString (r.val + 10)

/-- An uppercase ASCII letter, the character class `[A-Z]`. -/
def isUpperLetter (c : Char) : Bool := 'A' ≤ c && c ≤ 'Z'

/-- An ASCII digit, the character class `\d` restricted to `0-9`. -/
def isAsciiDigit (c : Char) : Bool := '0' ≤ c && c ≤ '9'

/-- Checker for the regular expression `^[A-Z]+-[A-Z]+-\d\d$` on the
character sequence of a string. -/
def matchesRoomCodeFormat (s : String) : Bool :=
  let (w1, rest1) := s.data.span isUpperLetter
  match rest1 with
  | '-' :: rest2 =>
      let (w2, rest3) := rest2.span isUpperLetter
      match rest3 with
      | '-' :: d1 :: d2 :: [] =>
          !w1.isEmpty && !w2.isEmpty && isAsciiDigit d1 && isAsciiDigit d2
      | _ => false
  | _ => false

/-- A create/join/leave operation issued by some client, used to talk
about every state reachable through the three roster-changing handlers. -/
inductive Op where
  | create (code : String) (u : Participant) (now : Nat)
  | join (rawCode : String) (u : Participant)
  | leave (code : String) (u : Participant)

/-- Apply one operation to the store. -/
def applyOp (st : Store) : Op → Store
  | .create code u now => handleCreateRoom st code u now
  | .join rawCode u => handleJoinRoom st rawCode u
  | .leave code u => leaveRoom st code u

/-- Apply a sequence of operations, left to right. -/
def applyOps (ops : List Op) (st : Store) : Store := ops.foldl applyOp st

/-- Invariant (b) of the data model: the host id is the id of a current
participant. -/
def hostMem (s : Session) : Prop :=
  s.hostId ∈ s.participants.map Participant.uid

/-- One inclusion of invariant (c): every participant id is a key of the
permissions map. -/
def idsSubPerms (s : Session) : Prop :=
  ∀ p ∈ s.participants, (s.permissions p.uid).isSome = true

/-- Conjunction of the per-session invariants preserved by the handlers. -/
def SessionInv (s : Session) : Prop := hostMem s ∧ idsSubPerms s

/-- Every document in the store satisfies the session invariant. -/
def storeInv (st : Store) : Prop :=
  ∀ code s, readOnce st code = some s → SessionInv s

theorem storeInv_emptyStore : storeInv emptyStore := by
  intro code s h
  simp [readOnce, emptyStore] at h

theorem readOnce_setDoc_self (st : Store) (code : String) (s : Session) :
    readOnce (setDoc st code s) code = some s := by
  simp [readOnce, setDoc]

theorem readOnce_updateDocWith_self (st : Store) (code : String) (f : Session → Session) :
    readOnce (updateDocWith st code f) code = (readOnce st code).map f := by
  simp [readOnce, updateDocWith]

theorem readOnce_deleteDoc_self (st : Store) (code : String) :
    readOnce (deleteDoc st code) code = none := by
  simp [readOnce, deleteDoc]

theorem storeInv_setDoc (st : Store) (code : String) (s0 : Session)
    (h : storeInv st) (hs : SessionInv s0) : storeInv (setDoc st code s0) := by
  intro c s hc
  simp only [readOnce, setDoc] at hc
  by_cases hcc : c = code
  · simp only [hcc, if_pos rfl] at hc
    cases hc
    exact hs
  · simp only [if_neg hcc] at hc
    exact h c s hc

theorem storeInv_deleteDoc (st : Store) (code : String)
    (h : storeInv st) : storeInv (deleteDoc st code) := by
  intro c s hc
  simp only [readOnce, deleteDoc] at hc
  by_cases hcc : c = code
  · simp [hcc] at hc
  · simp only [if_neg hcc] at hc
    exact h c s hc

theorem storeInv_updateDocWith (st : Store) (code : String) (f : Session → Session)
    (h : storeInv st)
    (hf : ∀ s, readOnce st code = some s → SessionInv s → SessionInv (f s)) :
    storeInv (updateDocWith st code f) := by
  intro c s hc
  simp only [readOnce, updateDocWith] at hc
  by_cases hcc : c = code
  · subst hcc
    cases hd : st c with
    | none => rw [hd] at hc; simp at hc
    | some d =>
        rw [hd] at hc
        simp only [if_pos rfl, Option.map_some'] at hc
        cases hc
        exact hf d hd (h c d hd)
  · simp only [if_neg hcc] at hc
    exact h c s hc

theorem mem_map_uid_arrayUnion {x : String} {l : List Participant} {a : Participant}
    (h : x ∈ l.map Participant.uid) :
    x ∈ (arrayUnion l a).map Participant.uid := by
  unfold arrayUnion
  split
  · exact h
  · simp only [List.map_append]
    exact List.mem_append_left _ h

theorem mem_arrayUnion_elim {p a : Participant} {l : List Participant}
    (h : p ∈ arrayUnion l a) : p ∈ l ∨ p = a := by
  unfold arrayUnion at h
  split at h
  · exact Or.inl h
  · rcases List.mem_append.mp h with h1 | h1
    · exact Or.inl h1
    · simp only [List.mem_singleton] at h1
      exact Or.inr h1

theorem sessionInv_initial (u : Participant) (now : Nat) :
    SessionInv (initialSessionData u now) := by
  constructor
  · simp [hostMem, initialSessionData]
  · intro p hp
    simp only [initialSessionData, List.mem_singleton] at hp
    subst hp
    simp [initialSessionData]

theorem storeInv_create (st : Store) (code : String) (u : Participant) (now : Nat)
    (h : storeInv st) : storeInv (handleCreateRoom st code u now) :=
  storeInv_setDoc st code _ h (sessionInv_initial u now)

theorem storeInv_join (st : Store) (rawCode : String) (u : Participant)
    (h : storeInv st) : storeInv (handleJoinRoom st rawCode u) := by
  simp only [handleJoinRoom]
  split
  · exact h
  · split
    · exact h
    · next s hread =>
        apply storeInv_updateDocWith _ _ _ h
        intro d hd hinv
        rw [hread] at hd
        cases hd
        constructor
        · exact mem_map_uid_arrayUnion hinv.1
        · intro p hp
          rcases mem_arrayUnion_elim hp with hmem | rfl
          · by_cases hu : p.uid = u.uid
            · simp [hu]
            · simpa [hu] using hinv.2 p hmem
          · simp

theorem storeInv_leaveStoreUpdate (st : Store) (code : String) (u : Participant)
    (s : Session) (hread : readOnce st code = some s)
    (h : storeInv st) : storeInv (leaveStoreUpdate st code u s) := by
  simp only [leaveStoreUpdate]
  split
  · next hcond =>
      split
      · exact h
      · next newHost rest heq =>
          apply storeInv_updateDocWith _ _ _ h
          intro d hd hinv
          rw [hread] at hd
          cases hd
          constructor
          · simp only [hostMem, heq]
            simp
          · intro p hp
            simp only at hp
            have hps : p ∈ s.participants := List.mem_of_mem_filter hp
            by_cases hu : p.uid = newHost.uid
            · simp [hu]
            · simpa [hu] using hinv.2 p hps
  · next hcond =>
      split
      · exact storeInv_deleteDoc st code h
      · next hne =>
          have hne' : (s.participants.filter (fun p => p.uid ≠ u.uid)) ≠ [] := hne
          have hnh : u.uid ≠ s.hostId := by
            intro heq
            exact hcond ⟨heq, hne'⟩
          apply storeInv_updateDocWith _ _ _ h
          intro d hd hinv
          rw [hread] at hd
          cases hd
          constructor
          · rcases List.mem_map.mp hinv.1 with ⟨q, hq, hqu⟩
            refine List.mem_map.mpr ⟨q, List.mem_filter.mpr ⟨hq, ?_⟩, hqu⟩
            simp only [decide_eq_true_eq]
            rw [hqu]
            exact fun hx => hnh hx.symm
          · intro p hp
            have hps : p ∈ s.participants := List.mem_of_mem_filter hp
            have hpu : p.uid ≠ u.uid := by
              have := (List.mem_filter.mp hp).2
              simpa [decide_eq_true_eq] using this
            simpa [hpu] using hinv.2 p hps

theorem storeInv_leave (st : Store) (code : String) (u : Participant)
    (h : storeInv st) : storeInv (leaveRoom st code u) := by
  unfold leaveRoom
  split
  · exact h
  · next s hread => exact storeInv_leaveStoreUpdate st code u s hread h

theorem storeInv_applyOp (st : Store) (op : Op) (h : storeInv st) :
    storeInv (applyOp st op) := by
  cases op with
  | create code u now => exact storeInv_create st code u now h
  | join rawCode u => exact storeInv_join st rawCode u h
  | leave code u => exact storeInv_leave st code u h

theorem storeInv_applyOps (ops : List Op) (st : Store) (h : storeInv st) :
    storeInv (applyOps ops st) := by
  induction ops generalizing st with
  | nil => exact h
  | cons op rest ih => exact ih (applyOp st op) (storeInv_applyOp st op h)

theorem mem_arrayUnion_self {α : Type} [DecidableEq α] (l : List α) (x : α) :
    x ∈ arrayUnion l x := by
  unfold arrayUnion
  split
  · assumption
  · exact List.mem_append_right _ (List.mem_singleton.mpr rfl)

theorem arrayUnion_of_mem {α : Type} [DecidableEq α] {l : List α} {x : α}
    (h : x ∈ l) : arrayUnion l x = l := if_pos h

theorem arrayUnion_of_not_mem {α : Type} [DecidableEq α] {l : List α} {x : α}
    (h : x ∉ l) : arrayUnion l x = l ++ [x] := if_neg h

/-! Concrete identities and sessions used in the witnesses and
counterexamples below. -/

/-- Identity creating and hosting the demo room. -/
def demoH : Participant := { uid := "h1", name := "Host", photoURL := "" }

/-- Second joiner of the demo room. -/
def demoB : Participant := { uid := "b1", name := "Bea", photoURL := "" }

/-- Third joiner of the demo room. -/
def demoC : Participant := { uid := "c1", name := "Cy", photoURL := "" }

/-- Demo sequence in which the host creates a room, a second user joins,
and then the host leaves while the other user remains. -/
def hostLeaveOps : List Op :=
  [Op.create "HAPPY-FOX-11" demoH 0,
   Op.join "HAPPY-FOX-11" demoB,
   Op.leave "HAPPY-FOX-11" demoH]

/-- Demo sequence in which, after the host handover of `hostLeaveOps`
promoted the remaining user, that user joins the room a second time. -/
def rejoinOps : List Op := hostLeaveOps ++ [Op.join "HAPPY-FOX-11" demoB]

/-- Three-member session `[H, B, C]` hosted by `H`, as in the host
failover scenario of the spec. -/
def demoSessionHBC : Session where
  hostId := "h1"
  participants := [demoH, demoB, demoC]
  chatMessages := []
  sharedNotes := []
  sharedFlashcards := []
  quizState := none
  permissions := fun k =>
    if k = "h1" then some { canShare := true }
    else if k = "b1" then some { canShare := false }
    else if k = "c1" then some { canShare := false }
    else none
  createdAt := 0

/-- Store holding only the three-member demo session. -/
def demoStoreHBC : Store := setDoc emptyStore "HAPPY-FOX-11" demoSessionHBC

/-- Two-member session in which `demoB` has `canShare = false`. -/
def demoNoShareSession : Session where
  hostId := "h1"
  participants := [demoH, demoB]
  chatMessages := []
  sharedNotes := []
  sharedFlashcards := []
  quizState := none
  permissions := fun k =>
    if k = "h1" then some { canShare := true }
    else if k = "b1" then some { canShare := false }
    else none
  createdAt := 0

/-- Store holding only `demoNoShareSession`. -/
def demoNoShareStore : Store := setDoc emptyStore "HAPPY-FOX-11" demoNoShareSession

/-- Pre-existing session of another user, for the code-collision
counterexample. -/
def demoForeignSession : Session where
  hostId := "b1"
  participants := [demoB]
  chatMessages := []
  sharedNotes := []
  sharedFlashcards := []
  quizState := none
  permissions := fun k => if k = "b1" then some { canShare := true } else none
  createdAt := 7

/-- Client state of someone not currently in any session. -/
def demoIdleClient : ClientState where
  roomCode := ""
  inputRoomCode := ""
  sessionData := none
  subscribed := false

/-! Claims. -/

/-- Claim C7: for every persisted session reachable by any sequence of
create/join/leave operations from the empty store, whenever the
participant list is non-empty the host id is the id of some current
participant. -/
theorem hostId_member_of_participants (ops : List Op) (code : String) (s : Session)
    (h : readOnce (applyOps ops emptyStore) code = some s)
    (_hne : s.participants ≠ []) :
    s.hostId ∈ s.participants.map Participant.uid :=
  ((storeInv_applyOps ops emptyStore storeInv_emptyStore) code s h).1

/-- Witness for claim C7, at a store holding a freshly created room. -/
theorem hostId_member_of_participants_witness :
    (initialSessionData demoH 0).hostId ∈
      (initialSessionData demoH 0).participants.map Participant.uid :=
  hostId_member_of_participants [Op.create "HAPPY-FOX-11" demoH 0] "HAPPY-FOX-11"
    (initialSessionData demoH 0) rfl (by decide)

/-- Claim C1 (counterexample): after the host `demoH` leaves a room that
still has the participant `demoB`, the departing host's permissions entry
is NOT removed — the key "h1" is still mapped although the participant id
set is just `["b1"]`, so the permissions key set differs from the id set
of participants. -/
theorem hostLeave_keeps_host_permission_entry :
    ((readOnce (applyOps hostLeaveOps emptyStore) "HAPPY-FOX-11").bind
        (fun s => s.permissions demoH.uid) = some { canShare := true })
  ∧ ((readOnce (applyOps hostLeaveOps emptyStore) "HAPPY-FOX-11").map
        (fun s => s.participants.map Participant.uid) = some [demoB.uid]) :=
  ⟨rfl, rfl⟩

/-- Claim C1 (amended): after any sequence of create/join/leave operations
every participant id is a key of the permissions map; the converse
inclusion fails, because a host leaving a still-populated room keeps its
permissions entry. -/
theorem participant_ids_subset_of_permission_keys (ops : List Op) (code : String)
    (s : Session) (p : Participant)
    (h : readOnce (applyOps ops emptyStore) code = some s)
    (hp : p ∈ s.participants) :
    (s.permissions p.uid).isSome = true :=
  ((storeInv_applyOps ops emptyStore storeInv_emptyStore) code s h).2 p hp

/-- Witness for the amended claim C1, at a freshly created room. -/
theorem participant_ids_subset_of_permission_keys_witness :
    ((initialSessionData demoH 0).permissions demoH.uid).isSome = true :=
  participant_ids_subset_of_permission_keys [Op.create "HAPPY-FOX-11" demoH 0]
    "HAPPY-FOX-11" (initialSessionData demoH 0) demoH rfl (by decide)

/-- Claim C5: on a session with participants `[H, B, C]` hosted by `H`,
`leaveRoom(H)` promotes `B` (the earliest remaining joiner) to host, grants
`B` the sharing permission, and leaves the roster `[B, C]` in order. -/
theorem leaveRoom_host_failover (st : Store) (code : String) (H B C : Participant)
    (s : Session) (hr : readOnce st code = some s)
    (hp : s.participants = [H, B, C]) (hh : s.hostId = H.uid)
    (hB : B.uid ≠ H.uid) (hC : C.uid ≠ H.uid) :
    ((readOnce (leaveRoom st code H) code).map Session.hostId = some B.uid)
  ∧ ((readOnce (leaveRoom st code H) code).map Session.participants = some [B, C])
  ∧ ((readOnce (leaveRoom st code H) code).bind (fun t => t.permissions B.uid)
      = some { canShare := true }) := by
  have hfil : s.participants.filter (fun p => p.uid ≠ H.uid) = [B, C] := by
    rw [hp]
    simp [hB, hC]
  have hlv : leaveRoom st code H = leaveStoreUpdate st code H s := by
    unfold leaveRoom
    rw [hr]
  rw [hlv]
  simp only [leaveStoreUpdate, hfil]
  rw [if_pos (show H.uid = s.hostId ∧ ([B, C] : List Participant) ≠ [] from
    ⟨hh.symm, by simp⟩)]
  rw [readOnce_updateDocWith_self, hr]
  simp

/-- Witness for claim C5, at the concrete three-member demo session. -/
theorem leaveRoom_host_failover_witness :
    ((readOnce (leaveRoom demoStoreHBC "HAPPY-FOX-11" demoH) "HAPPY-FOX-11").map
        Session.hostId = some demoB.uid)
  ∧ ((readOnce (leaveRoom demoStoreHBC "HAPPY-FOX-11" demoH) "HAPPY-FOX-11").map
        Session.participants = some [demoB, demoC])
  ∧ ((readOnce (leaveRoom demoStoreHBC "HAPPY-FOX-11" demoH) "HAPPY-FOX-11").bind
        (fun t => t.permissions demoB.uid) = some { canShare := true }) :=
  leaveRoom_host_failover demoStoreHBC "HAPPY-FOX-11" demoH demoB demoC
    demoSessionHBC rfl rfl rfl (by decide) (by decide)

/-- Claim C6: creating a room and immediately leaving it deletes the
session document, and in general whenever the last remaining participant
leaves (nobody with a different uid stays behind) the document is absent
afterwards. -/
theorem create_then_leave_deletes_session :
    (∀ (st : Store) (code : String) (u : Participant) (now : Nat),
        readOnce (leaveRoom (handleCreateRoom st code u now) code u) code = none)
  ∧ (∀ (st : Store) (code : String) (u : Participant) (s : Session),
        readOnce st code = some s →
        s.participants.filter (fun p => p.uid ≠ u.uid) = [] →
        readOnce (leaveRoom st code u) code = none) := by
  have hgen : ∀ (st : Store) (code : String) (u : Participant) (s : Session),
      readOnce st code = some s →
      s.participants.filter (fun p => p.uid ≠ u.uid) = [] →
      readOnce (leaveRoom st code u) code = none := by
    intro st code u s hr hfil
    have hlv : leaveRoom st code u = leaveStoreUpdate st code u s := by
      unfold leaveRoom
      rw [hr]
    rw [hlv]
    simp only [leaveStoreUpdate, hfil]
    simp [readOnce_deleteDoc_self]
  refine ⟨?_, hgen⟩
  intro st code u now
  refine hgen _ _ _ (initialSessionData u now) (readOnce_setDoc_self st code _) ?_
  simp [initialSessionData]

/-- Witness for claim C6, at a store holding one single-member session. -/
theorem create_then_leave_deletes_session_witness :
    readOnce (leaveRoom (setDoc emptyStore "HAPPY-FOX-11" (initialSessionData demoH 0))
      "HAPPY-FOX-11" demoH) "HAPPY-FOX-11" = none :=
  create_then_leave_deletes_session.2
    (setDoc emptyStore "HAPPY-FOX-11" (initialSessionData demoH 0))
    "HAPPY-FOX-11" demoH (initialSessionData demoH 0) rfl (by decide)

/-- Claim C10: `handleLeaveRoom` is a complete no-op when the client holds
no room code or no session snapshot: the local state (including the
subscription flag) and the store are returned unchanged. -/
theorem leaveRoom_noop_when_not_in_session (cs : ClientState) (u : Participant)
    (st : Store) (h : cs.roomCode = "" ∨ cs.sessionData = none) :
    handleLeaveRoom cs u st = (cs, st) := by
  unfold handleLeaveRoom
  cases hsd : cs.sessionData with
  | none => rfl
  | some s =>
      rcases h with h | h
      · rw [h]
        simp
      · rw [hsd] at h
        cases h

/-- Witness for claim C10, at an idle client state. -/
theorem leaveRoom_noop_when_not_in_session_witness :
    handleLeaveRoom demoIdleClient demoH emptyStore = (demoIdleClient, emptyStore) :=
  leaveRoom_noop_when_not_in_session demoIdleClient demoH emptyStore (Or.inr rfl)

/-- Claim C4 (counterexample): `handleCreateRoom` does not check whether
the generated code is in use: with `demoForeignSession` already stored
under "HAPPY-FOX-11" (host "b1"), creating a room under the same code
replaces that document with a fresh one hosted by "h1". -/
theorem createRoom_overwrites_existing_session :
    ((readOnce (setDoc emptyStore "HAPPY-FOX-11" demoForeignSession)
        "HAPPY-FOX-11").map Session.hostId = some demoB.uid)
  ∧ ((readOnce (handleCreateRoom (setDoc emptyStore "HAPPY-FOX-11" demoForeignSession)
        "HAPPY-FOX-11" demoH 9) "HAPPY-FOX-11").map Session.hostId = some demoH.uid) :=
  ⟨rfl, rfl⟩

/-- Claim C4 (amended): `handleCreateRoom` performs no create-if-absent
check and no retry; it writes the initial document unconditionally with
`setDoc`, so any pre-existing session under the generated code is
replaced. -/
theorem createRoom_unconditionally_sets_document (st : Store) (code : String)
    (u : Participant) (now : Nat) :
    readOnce (handleCreateRoom st code u now) code = some (initialSessionData u now) :=
  readOnce_setDoc_self st code _

/-- Claim C9: every draw of the random source yields a room code matching
the regular expression `^[A-Z]+-[A-Z]+-\d\d$` — two uppercase words joined
by hyphens and a suffix of exactly two digits (the suffix draw lands in
`10..99`). -/
theorem generateRoomCode_matches_format :
    ∀ (i : Fin word1.length) (j : Fin word2.length) (r : Fin 90),
      matchesRoomCodeFormat (generateRoomCode i j r) = true := by decide

/-- Claim C2 (counterexample): `demoB` has `canShare = false` in the
stored session, yet `handleGenerateNotes` reports no error and the length
of `sharedNotes` changes from 0 to 1 — the share is not rejected. -/
theorem shareNotes_without_permission_appends :
    (demoNoShareSession.permissions demoB.uid = some { canShare := false })
  ∧ ((handleGenerateNotes demoNoShareStore "HAPPY-FOX-11" demoB "photosynthesis"
        "note-1" (OracleOutcome.parsedJson ⟨some ["line one"]⟩)).2 = none)
  ∧ ((readOnce (handleGenerateNotes demoNoShareStore "HAPPY-FOX-11" demoB
        "photosynthesis" "note-1" (OracleOutcome.parsedJson ⟨some ["line one"]⟩)).1
        "HAPPY-FOX-11").map (fun s => s.sharedNotes.length) = some 1)
  ∧ ((readOnce demoNoShareStore "HAPPY-FOX-11").map
        (fun s => s.sharedNotes.length) = some 0) :=
  ⟨rfl, rfl, rfl, rfl⟩

/-- Claim C2 (amended): `handleGenerateNotes` consults no permissions at
all — for any stored session, any caller, and any parsed oracle response,
the operation reports no error and appends the note block, whatever the
caller's `canShare` entry holds. -/
theorem generateNotes_ignores_permissions (st : Store) (code : String)
    (u : Participant) (input blockId : String) (p : ParsedNotesJson) (s : Session)
    (hr : readOnce st code = some s) (hin : jsTrim input ≠ "") :
    ((handleGenerateNotes st code u input blockId (OracleOutcome.parsedJson p)).2
        = none)
  ∧ ((readOnce (handleGenerateNotes st code u input blockId
        (OracleOutcome.parsedJson p)).1 code).map (fun t => t.sharedNotes)
      = some (arrayUnion s.sharedNotes
          { id := blockId, authorId := u.uid, authorName := u.name,
            notes := p.notes.getD [] })) := by
  unfold handleGenerateNotes
  rw [if_neg hin]
  refine ⟨rfl, ?_⟩
  simp only
  rw [readOnce_updateDocWith_self, hr]
  simp

/-- Witness for the amended claim C2, at the two-member demo session. -/
theorem generateNotes_ignores_permissions_witness :
    ((handleGenerateNotes demoNoShareStore "HAPPY-FOX-11" demoB "photosynthesis"
        "note-9" (OracleOutcome.parsedJson ⟨some ["line one"]⟩)).2 = none)
  ∧ ((readOnce (handleGenerateNotes demoNoShareStore "HAPPY-FOX-11" demoB
        "photosynthesis" "note-9" (OracleOutcome.parsedJson ⟨some ["line one"]⟩)).1
        "HAPPY-FOX-11").map (fun t => t.sharedNotes)
      = some (arrayUnion demoNoShareSession.sharedNotes
          { id := "note-9", authorId := demoB.uid, authorName := demoB.name,
            notes := (some ["line one"] : Option (List String)).getD [] })) :=
  generateNotes_ignores_permissions demoNoShareStore "HAPPY-FOX-11" demoB
    "photosynthesis" "note-9" ⟨some ["line one"]⟩ demoNoShareSession rfl (by decide)

/-- Claim C8 (counterexample): a response that parses as JSON but violates
the declared schema (no `notes` field) does NOT abort the operation before
the write — a note block with empty lines is appended to the stored
`sharedNotes`. -/
theorem schemaViolating_response_still_writes :
    ((handleGenerateNotes demoNoShareStore "HAPPY-FOX-11" demoH "topic" "note-2"
        (OracleOutcome.parsedJson ⟨none⟩)).2 = none)
  ∧ ((readOnce (handleGenerateNotes demoNoShareStore "HAPPY-FOX-11" demoH "topic"
        "note-2" (OracleOutcome.parsedJson ⟨none⟩)).1 "HAPPY-FOX-11").map
        (fun s => s.sharedNotes)
      = some [{ id := "note-2", authorId := "h1", authorName := "Host",
                notes := [] }]) :=
  ⟨rfl, rfl⟩

/-- Claim C8 (amended): when the oracle call itself throws or its output
is unparseable, the operation aborts before any write and the store — in
particular `sharedNotes` — is unchanged; but a parseable response that
violates the schema (missing `notes`) still appends a note block with
empty lines. -/
theorem oracle_failure_leaves_store_unchanged :
    (∀ (st : Store) (code : String) (u : Participant) (input blockId : String),
        (handleGenerateNotes st code u input blockId OracleOutcome.genFailure).1 = st
      ∧ (handleGenerateNotes st code u input blockId OracleOutcome.parseFailure).1 = st)
  ∧ (∀ (st : Store) (code : String) (u : Participant) (input blockId : String)
        (s : Session),
        readOnce st code = some s → jsTrim input ≠ "" →
        (readOnce (handleGenerateNotes st code u input blockId
            (OracleOutcome.parsedJson ⟨none⟩)).1 code).map (fun t => t.sharedNotes)
          = some (arrayUnion s.sharedNotes
              { id := blockId, authorId := u.uid, authorName := u.name,
                notes := [] })) := by
  constructor
  · intro st code u input blockId
    unfold handleGenerateNotes
    by_cases hin : jsTrim input = ""
    · rw [if_pos hin]
      exact ⟨rfl, rfl⟩
    · rw [if_neg hin]
      exact ⟨rfl, rfl⟩
  · intro st code u input blockId s hr hin
    unfold handleGenerateNotes
    rw [if_neg hin]
    simp only
    rw [readOnce_updateDocWith_self, hr]
    simp

/-- Witness for the amended claim C8: a schema-violating but parseable
response appends an empty-lined note block to the demo session. -/
theorem oracle_failure_leaves_store_unchanged_witness :
    (readOnce (handleGenerateNotes demoNoShareStore "HAPPY-FOX-11" demoH "topic"
        "note-3" (OracleOutcome.parsedJson ⟨none⟩)).1 "HAPPY-FOX-11").map
        (fun t => t.sharedNotes)
      = some (arrayUnion demoNoShareSession.sharedNotes
          { id := "note-3", authorId := demoH.uid, authorName := demoH.name,
            notes := [] }) :=
  oracle_failure_leaves_store_unchanged.2 demoNoShareStore "HAPPY-FOX-11" demoH
    "topic" "note-3" demoNoShareSession rfl (by decide)

/-- Claim C3 (counterexample): `demoB` joins the room, is promoted to host
with `canShare = true` when `demoH` leaves, and then calls `joinRoom` a
second time: the permissions entry is overwritten back to
`canShare = false`, so an existing flag IS reset by a repeated join. -/
theorem joinRoom_resets_canShare_flag :
    ((readOnce (applyOps hostLeaveOps emptyStore) "HAPPY-FOX-11").bind
        (fun s => s.permissions demoB.uid) = some { canShare := true })
  ∧ ((readOnce (applyOps rejoinOps emptyStore) "HAPPY-FOX-11").bind
        (fun s => s.permissions demoB.uid) = some { canShare := false })
  ∧ ((readOnce (applyOps rejoinOps emptyStore) "HAPPY-FOX-11").map
        (fun s => s.participants) = some [demoB]) :=
  ⟨rfl, rfl, rfl⟩

/-- Claim C3 (amended): joining twice with the same identity yields
exactly one roster entry for that identity, but the second join
unconditionally rewrites the identity's permissions entry to
`{canShare := false}` instead of preserving an existing entry. -/
theorem joinRoom_twice_single_entry_flag_false (st : Store) (code : String)
    (u : Participant) (s : Session)
    (hnorm : jsToUpper (jsTrim code) = code) (hne : code ≠ "")
    (hr : readOnce st code = some s)
    (habs : s.participants.filter (fun p => p.uid = u.uid) = []) :
    ((readOnce (handleJoinRoom (handleJoinRoom st code u) code u) code).map
        (fun t => t.participants.filter (fun p => p.uid = u.uid)) = some [u])
  ∧ ((readOnce (handleJoinRoom (handleJoinRoom st code u) code u) code).bind
        (fun t => t.permissions u.uid) = some { canShare := false }) := by
  have hnotmem : u ∉ s.participants := by
    intro hmem
    have : u ∈ s.participants.filter (fun p => p.uid = u.uid) :=
      List.mem_filter.mpr ⟨hmem, by simp⟩
    rw [habs] at this
    simp at this
  simp only [handleJoinRoom, hnorm, if_neg hne]
  rw [hr]
  simp only [readOnce_updateDocWith_self, hr, Option.map_some']
  rw [arrayUnion_of_not_mem hnotmem]
  rw [arrayUnion_of_mem (List.mem_append_right _ (List.mem_singleton.mpr rfl))]
  constructor
  · rw [List.filter_append, habs]
    simp
  · simp

/-- Witness for the amended claim C3: `demoB` joins a fresh room of
`demoH` twice in a row. -/
theorem joinRoom_twice_single_entry_flag_false_witness :
    ((readOnce (handleJoinRoom (handleJoinRoom
        (setDoc emptyStore "HAPPY-FOX-11" (initialSessionData demoH 0))
        "HAPPY-FOX-11" demoB) "HAPPY-FOX-11" demoB) "HAPPY-FOX-11").map
        (fun t => t.participants.filter (fun p => p.uid = demoB.uid)) = some [demoB])
  ∧ ((readOnce (handleJoinRoom (handleJoinRoom
        (setDoc emptyStore "HAPPY-FOX-11" (initialSessionData demoH 0))
        "HAPPY-FOX-11" demoB) "HAPPY-FOX-11" demoB) "HAPPY-FOX-11").bind
        (fun t => t.permissions demoB.uid) = some { canShare := false }) :=
  joinRoom_twice_single_entry_flag_false
    (setDoc emptyStore "HAPPY-FOX-11" (initialSessionData demoH 0))
    "HAPPY-FOX-11" demoB (initialSessionData demoH 0) (by decide) (by decide)
    rfl (by decide)

end GroupStudy
